import Mathlib

set_option maxHeartbeats 1000000

namespace Nitisure

/-- Default collection name from the source: the environment override is absent, so the
constant default of ingest.ts is used. -/
def COLLECTION_NAME : String := "nitisure_laws"

/-- Configured vector dimensionality of the collection (source: createCollection with
vectors size 768, distance Cosine). -/
def VECTOR_SIZE : Nat := 768

/-- Fixed inter-record delay in milliseconds (source: sleep(300) after a successful upload). -/
def SLEEP_MS : Nat := 300

/-- One CSV row as produced by csv-parser: each consumed column is present (some) or
absent (none), mirroring a JavaScript object whose missing properties read as undefined. -/
structure Row where
  text_th : Option String := none
  act_name_thai : Option String := none
  act_name_eng : Option String := none
  section_number_eng : Option String := none
  text_eng : Option String := none
  notes_thai : Option String := none
  keywords_th : Option String := none
  keywords_eng : Option String := none
  related_cases : Option String := none
  source_url : Option String := none
  law_category : Option String := none
deriving DecidableEq, Repr

/-- JavaScript truthiness of an optional string field: undefined and the empty string are
falsy, every other string is truthy. This is the guard `if (!row.text_th) continue`. -/
def truthy : Option String → Bool
  | none => false
  | some s => !(s == "")

/-- JavaScript template-literal interpolation of a possibly missing field: a missing
(undefined) field prints as the literal string "undefined"; a present field prints as is. -/
def interp : Option String → String
  | none => "undefined"
  | some s => s

/-- JavaScript String.prototype.trim: drop leading and trailing whitespace. Stated over
the character list so that it evaluates by structural recursion. -/
def jsTrim (s : String) : String :=
  String.mk (((s.data.dropWhile Char.isWhitespace).reverse.dropWhile Char.isWhitespace).reverse)

/-- Composed text of one row: the template literal of ingest.ts, interpolated with the
row's fields and trimmed. -/
def textToEmbed (row : Row) : String :=
  jsTrim
  ("\n          Law: " ++ interp row.act_name_thai ++ " (" ++ interp row.act_name_eng ++ ")" ++
   "\n          Section: " ++ interp row.section_number_eng ++
   "\n          Thai Text: " ++ interp row.text_th ++
   "\n          Eng Text: " ++ interp row.text_eng ++
   "\n          Explanation: " ++ interp row.notes_thai ++
   "\n          Keywords: " ++ interp row.keywords_th ++ ", " ++ interp row.keywords_eng ++
   "\n          Cases: " ++ interp row.related_cases ++
   "\n        ")

/-- Payload stored with each point, field for field the upsert payload object of the
source (its `section` key is spelled section_label here because that word is reserved). -/
structure Payload where
  act_name : Option String
  section_label : Option String
  text : Option String
  explanation : Option String
  url : Option String
  category : Option String
deriving DecidableEq, Repr

/-- One point sent to the index: identity, embedding vector and payload. -/
structure Point where
  id : String
  vector : List Int
  payload : Payload
deriving DecidableEq, Repr

/-- Payload derived from a row, exactly the fields the source selects for the upsert. -/
def mkPayload (row : Row) : Payload :=
  { act_name := row.act_name_thai
    section_label := row.section_number_eng
    text := row.text_th
    explanation := row.notes_thai
    url := row.source_url
    category := row.law_category }

/-- The point written for a row, given the fresh identity and the embedding vector. -/
def mkPoint (u : String) (v : List Int) (row : Row) : Point :=
  { id := u, vector := v, payload := mkPayload row }

/-- Observable events of one run: console lines and outbound service calls. The summary
constructor can express a final count report (seen, skipped, succeeded, failed) in the
sense of the specification; whether the run ever emits one is settled by the theorems. -/
inductive Event where
  | foundRows (n : Nat)
  | processing (label : String)
  | embedCall (i : Nat) (text : String)
  | upsertCall (i : Nat) (p : Point)
  | uploaded (label : String)
  | failedRow (err : String)
  | sleep (ms : Nat)
  | complete
  | summary (seen skipped succeeded failed : Nat)
deriving DecidableEq, Repr

/-- Behaviour of the external collaborators during one run: the embedding service and the
index writer may succeed or fail per call (indexed by the record's position, since each
record makes at most one call to each), and crypto.randomUUID is a stream of identities. -/
structure Oracle where
  embed : Nat → String → Except String (List Int)
  upsert : Nat → Point → Except String Unit
  uuid : Nat → String

/-- Upsert semantics of the index: overwrite the entry with the same identity if one
exists, otherwise append a new entry. -/
def upsertPoint (idx : List Point) (p : Point) : List Point :=
  if idx.any (fun q => q.id == p.id) then idx.map (fun q => if q.id == p.id then p else q)
  else idx ++ [p]

/-- State of one run: the event trace so far and the content of the index collection. -/
structure RunState where
  trace : List Event
  idx : List Point
deriving DecidableEq, Repr

/-- One iteration of the for-loop of ingest.ts over one row: skip on falsy text_th,
otherwise log, compose, embed, upsert, and on full success log the upload and sleep 300;
any error is caught, logged, and the iteration ends without sleeping. -/
def processRow (o : Oracle) (i : Nat) (row : Row) (st : RunState) : RunState :=
  if truthy row.text_th then
    let lbl := interp row.section_number_eng
    let text := textToEmbed row
    match o.embed i text with
    | .error e =>
        { st with trace := st.trace ++
            [Event.processing lbl, Event.embedCall i text, Event.failedRow e] }
    | .ok v =>
        let p := mkPoint (o.uuid i) v row
        match o.upsert i p with
        | .error e =>
            { st with trace := st.trace ++
                [Event.processing lbl, Event.embedCall i text, Event.upsertCall i p,
                 Event.failedRow e] }
        | .ok _ =>
            { trace := st.trace ++
                [Event.processing lbl, Event.embedCall i text, Event.upsertCall i p,
                 Event.uploaded lbl, Event.sleep SLEEP_MS]
              idx := upsertPoint st.idx p }
  else st

/-- The events contributed by one row on its own. -/
def recordEvents (o : Oracle) (i : Nat) (row : Row) : List Event :=
  (processRow o i row { trace := [], idx := [] }).trace

/-- The remainder of the loop starting at position i. -/
def runFrom (o : Oracle) (i : Nat) (rows : List Row) (st : RunState) : RunState :=
  match rows with
  | [] => st
  | r :: rest => runFrom o (i + 1) rest (processRow o i r st)

/-- All events contributed by the loop from position i on. -/
def eventsFrom (o : Oracle) (i : Nat) (rows : List Row) : List Event :=
  match rows with
  | [] => []
  | r :: rest => recordEvents o i r ++ eventsFrom o (i + 1) rest

/-- A whole processing phase over the buffered rows, starting from a given index content:
the row count is logged, the loop runs, and a completion message ends the trace. -/
def runRowsOn (o : Oracle) (rows : List Row) (idx0 : List Point) : RunState :=
  let st := runFrom o 0 rows { trace := [Event.foundRows rows.length], idx := idx0 }
  { st with trace := st.trace ++ [Event.complete] }

/-- A whole processing phase starting from an empty index. -/
def runRows (o : Oracle) (rows : List Row) : RunState :=
  runRowsOn o rows []

/-- Terminal classification of one row, following the branches of processRow: skipped by
the eligibility gate, failed on an embedding or write error, done on success. -/
inductive Status where
  | skipped
  | done
  | failed
deriving DecidableEq, Repr

/-- The status a row reaches under a given oracle. -/
def rowStatus (o : Oracle) (i : Nat) (row : Row) : Status :=
  if truthy row.text_th then
    match o.embed i (textToEmbed row) with
    | .error _ => .failed
    | .ok v =>
        match o.upsert i (mkPoint (o.uuid i) v row) with
        | .error _ => .failed
        | .ok _ => .done
  else .skipped

/-- Statuses of all rows from position i on. -/
def statusesFrom (o : Oracle) (i : Nat) : List Row → List Status
  | [] => []
  | r :: rest => rowStatus o i r :: statusesFrom o (i + 1) rest

/-- Number of records seen: every buffered row enters the loop. -/
def seenCount (rows : List Row) : Nat := rows.length

/-- Number of records the eligibility gate skips. -/
def skippedCount (o : Oracle) (rows : List Row) : Nat :=
  (statusesFrom o 0 rows).count Status.skipped

/-- Number of records ingested to the end. -/
def succeededCount (o : Oracle) (rows : List Row) : Nat :=
  (statusesFrom o 0 rows).count Status.done

/-- Number of records that reached the pipeline and failed. -/
def failedCount (o : Oracle) (rows : List Row) : Nat :=
  (statusesFrom o 0 rows).count Status.failed

/-- Number of embedding calls in a trace. -/
def numEmbedCalls (tr : List Event) : Nat :=
  tr.countP fun e => match e with | Event.embedCall _ _ => true | _ => false

/-- Number of index write calls in a trace. -/
def numUpsertCalls (tr : List Event) : Nat :=
  tr.countP fun e => match e with | Event.upsertCall _ _ => true | _ => false

/-- A collection of the vector index, as configuration: name, dimensionality, metric. -/
structure Collection where
  name : String
  size : Nat
  distance : String
deriving DecidableEq, Repr

/-- One invocation of the provisioning step of ingest.ts: list the collections, create
the target with size 768 and distance Cosine only when its name is absent. Returns the
resulting collection list and how many create calls were issued (0 or 1). -/
def ensureCollection (target : String) (cols : List Collection) :
    List Collection × Nat :=
  if cols.any (fun c => c.name == target) then (cols, 0)
  else (cols ++ [{ name := target, size := VECTOR_SIZE, distance := "Cosine" }], 1)

/-- Two invocations of the provisioning step in sequence; returns the final collection
list and the total number of create calls. -/
def ensureTwice (target : String) (cols : List Collection) : List Collection × Nat :=
  let r1 := ensureCollection target cols
  let r2 := ensureCollection target r1.1
  (r2.1, r1.2 + r2.2)

/-- The whole run of main: if listing the collections fails, the process exits with code
1 before any record is processed; otherwise provisioning completes, every row is
processed with per-record error isolation, and the process ends with exit code 0 no
matter how many records failed. Returns the exit code and the processing state. -/
def mainRun (getCols : Except String (List Collection)) (o : Oracle) (rows : List Row) :
    Nat × RunState :=
  match getCols with
  | .error _ => (1, { trace := [], idx := [] })
  | .ok cs =>
      let _ := ensureCollection COLLECTION_NAME cs
      (0, runRows o rows)

/-- The eligible rows, from position i on, whose embedding call succeeds, paired with
their position and the returned vector. Which rows these are depends only on the
embedding behaviour, never on the identity stream. -/
def embedOk (e : Nat → String → Except String (List Int)) (i : Nat) :
    List Row → List (Nat × Row × List Int)
  | [] => []
  | r :: rest =>
      if truthy r.text_th then
        match e i (textToEmbed r) with
        | .error _ => embedOk e (i + 1) rest
        | .ok v => (i, r, v) :: embedOk e (i + 1) rest
      else embedOk e (i + 1) rest

/-- The content of a point: everything except its identity. -/
def content (p : Point) : List Int × Payload := (p.vector, p.payload)

/-- A row with every optional field made present, a missing field replaced by the string
it interpolates to. -/
def canonize (row : Row) : Row :=
  { row with
    act_name_thai := some (interp row.act_name_thai)
    act_name_eng := some (interp row.act_name_eng)
    section_number_eng := some (interp row.section_number_eng)
    text_eng := some (interp row.text_eng)
    notes_thai := some (interp row.notes_thai)
    keywords_th := some (interp row.keywords_th)
    keywords_eng := some (interp row.keywords_eng)
    related_cases := some (interp row.related_cases) }

/-- Modelled from the spec: interpolation that substitutes an empty value for a missing
optional field, as the specification's composer contract words it. -/
def interpSpec : Option String → String
  | none => ""
  | some s => s

/-- Modelled from the spec: the composed text with empty-value substitution for missing
fields, the same fixed label order otherwise; to be compared with textToEmbed. -/
def textToEmbedSpec (row : Row) : String :=
  jsTrim
  ("\n          Law: " ++ interpSpec row.act_name_thai ++ " (" ++
   interpSpec row.act_name_eng ++ ")" ++
   "\n          Section: " ++ interpSpec row.section_number_eng ++
   "\n          Thai Text: " ++ interpSpec row.text_th ++
   "\n          Eng Text: " ++ interpSpec row.text_eng ++
   "\n          Explanation: " ++ interpSpec row.notes_thai ++
   "\n          Keywords: " ++ interpSpec row.keywords_th ++ ", " ++
   interpSpec row.keywords_eng ++
   "\n          Cases: " ++ interpSpec row.related_cases ++
   "\n        ")

/-- A fully populated eligible row used as a concrete test input. -/
def rowFull : Row :=
  { text_th := some "T", act_name_thai := some "M", act_name_eng := some "A",
    section_number_eng := some "S", text_eng := some "E", notes_thai := some "N",
    keywords_th := some "K", keywords_eng := some "L", related_cases := some "C",
    source_url := some "U", law_category := some "G" }

/-- An eligible row whose optional act-name field is absent. -/
def rowMissingAct : Row :=
  { text_th := some "T", act_name_eng := some "A", section_number_eng := some "S",
    text_eng := some "E", notes_thai := some "N", keywords_th := some "K",
    keywords_eng := some "L", related_cases := some "C" }

/-- A row with every field absent; in particular its primary text is absent. -/
def rowBlank : Row := {}

/-- An eligible row whose primary text is a single space. -/
def rowSpace : Row := { rowFull with text_th := some " " }

/-- The row rowFull with a different source url only. -/
def rowFullOtherUrl : Row := { rowFull with source_url := some "V" }

/-- An oracle on which every external call succeeds. -/
def oracleOk : Oracle :=
  { embed := fun _ _ => .ok [1], upsert := fun _ _ => .ok (), uuid := fun _ => "u" }

/-- An oracle on which every embedding call fails. -/
def oracleEmbedFail : Oracle :=
  { embed := fun _ _ => .error "rate limited", upsert := fun _ _ => .ok (),
    uuid := fun _ => "u" }

/-- An oracle whose embedding calls return a vector of length 3 instead of 768. -/
def oracleBadVector : Oracle :=
  { embed := fun _ _ => .ok [1, 2, 3], upsert := fun _ _ => .ok (), uuid := fun _ => "u" }

/-- An oracle on which exactly the embedding call of the record at position 1 fails. -/
def oracleFailAt1 : Oracle :=
  { embed := fun j _ => if j = 1 then .error "boom" else .ok [1]
    upsert := fun _ _ => .ok (), uuid := fun _ => "u" }

/-- An all-success oracle whose identity stream yields a0, a1, a2, ... -/
def oracleIdA : Oracle :=
  { embed := fun _ _ => .ok [1], upsert := fun _ _ => .ok ()
    uuid := fun j => if j = 0 then "a0" else "a+" }

/-- An all-success oracle whose identity stream yields b0, b1, b2, ... -/
def oracleIdB : Oracle :=
  { embed := fun _ _ => .ok [1], upsert := fun _ _ => .ok ()
    uuid := fun j => if j = 0 then "b0" else "b+" }

theorem processRow_trace_eq (o : Oracle) (i : Nat) (r : Row) (st : RunState) :
    (processRow o i r st).trace = st.trace ++ recordEvents o i r := by
  by_cases h : truthy r.text_th
  · cases he : o.embed i (textToEmbed r) with
    | error e => simp [processRow, recordEvents, h, he]
    | ok v =>
        cases hu : o.upsert i (mkPoint (o.uuid i) v r) with
        | error e => simp [processRow, recordEvents, h, he, hu]
        | ok u => simp [processRow, recordEvents, h, he, hu]
  · simp [processRow, recordEvents, h]

theorem runFrom_trace_eq (o : Oracle) (rows : List Row) (i : Nat) (st : RunState) :
    (runFrom o i rows st).trace = st.trace ++ eventsFrom o i rows := by
  induction rows generalizing i st with
  | nil => simp [runFrom, eventsFrom]
  | cons r rest ih =>
      simp only [runFrom, eventsFrom]
      rw [ih, processRow_trace_eq, List.append_assoc]

theorem eventsFrom_append (o : Oracle) (xs ys : List Row) (i : Nat) :
    eventsFrom o i (xs ++ ys) = eventsFrom o i xs ++ eventsFrom o (i + xs.length) ys := by
  induction xs generalizing i with
  | nil => simp [eventsFrom]
  | cons x xs ih =>
      have h1 : eventsFrom o i ((x :: xs) ++ ys) =
          recordEvents o i x ++ eventsFrom o (i + 1) (xs ++ ys) := rfl
      have h2 : eventsFrom o i (x :: xs) =
          recordEvents o i x ++ eventsFrom o (i + 1) xs := rfl
      have h3 : i + 1 + xs.length = i + (x :: xs).length := by
        simp only [List.length_cons]
        omega
      rw [h1, ih, h2, List.append_assoc, h3]

theorem recordEvents_skip (o : Oracle) (i : Nat) (r : Row)
    (h : truthy r.text_th = false) : recordEvents o i r = [] := by
  simp [recordEvents, processRow, h]

theorem recordEvents_embedFail (o : Oracle) (i : Nat) (r : Row) (e : String)
    (h : truthy r.text_th = true) (he : o.embed i (textToEmbed r) = .error e) :
    recordEvents o i r =
      [Event.processing (interp r.section_number_eng),
       Event.embedCall i (textToEmbed r), Event.failedRow e] := by
  simp [recordEvents, processRow, h, he]

theorem recordEvents_upsertFail (o : Oracle) (i : Nat) (r : Row) (v : List Int) (e : String)
    (h : truthy r.text_th = true) (he : o.embed i (textToEmbed r) = .ok v)
    (hu : o.upsert i (mkPoint (o.uuid i) v r) = .error e) :
    recordEvents o i r =
      [Event.processing (interp r.section_number_eng),
       Event.embedCall i (textToEmbed r),
       Event.upsertCall i (mkPoint (o.uuid i) v r), Event.failedRow e] := by
  simp [recordEvents, processRow, h, he, hu]

theorem recordEvents_ok (o : Oracle) (i : Nat) (r : Row) (v : List Int)
    (h : truthy r.text_th = true) (he : o.embed i (textToEmbed r) = .ok v)
    (hu : o.upsert i (mkPoint (o.uuid i) v r) = .ok ()) :
    recordEvents o i r =
      [Event.processing (interp r.section_number_eng),
       Event.embedCall i (textToEmbed r),
       Event.upsertCall i (mkPoint (o.uuid i) v r),
       Event.uploaded (interp r.section_number_eng), Event.sleep SLEEP_MS] := by
  simp [recordEvents, processRow, h, he, hu]

theorem rowStatus_done (o : Oracle) (i : Nat) (r : Row) (v : List Int)
    (h : truthy r.text_th = true) (he : o.embed i (textToEmbed r) = .ok v)
    (hu : o.upsert i (mkPoint (o.uuid i) v r) = .ok ()) :
    rowStatus o i r = .done := by
  simp [rowStatus, h, he, hu]

theorem rowStatus_embedFail (o : Oracle) (i : Nat) (r : Row) (e : String)
    (h : truthy r.text_th = true) (he : o.embed i (textToEmbed r) = .error e) :
    rowStatus o i r = .failed := by
  simp [rowStatus, h, he]

/-- Claim C2, counterexample: composing a record that has the primary text but lacks the
act-name field does not substitute an empty value for the missing field; the output
contains the literal string undefined where the act name would stand, and differs from
the empty-value composition the specification describes. -/
theorem compose_missing_field_not_empty :
    textToEmbed rowMissingAct ≠ textToEmbedSpec rowMissingAct ∧
    textToEmbed rowMissingAct =
      "Law: undefined (A)\n          Section: S\n          Thai Text: T\n          Eng Text: E\n          Explanation: N\n          Keywords: K, L\n          Cases: C" := by
  constructor
  · decide
  · rfl

/-- Claim C2, amended: compose is total (it raises no exception) and treats every missing
optional field exactly as if the field held the literal string undefined, leaving the
fixed label ordering of the surrounding fields unchanged; the substituted value is the
string undefined, not an empty value. -/
theorem compose_missing_field_as_undefined (row : Row) :
    textToEmbed row = textToEmbed (canonize row) ∧
    interp none = "undefined" ∧ ∀ s, interp (some s) = s :=
  ⟨rfl, rfl, fun _ => rfl⟩

/-- Claim C9: composition is deterministic and a pure function of the record fields it
reads: any two records that agree on the nine consumed fields compose to the identical
text (in particular they may differ in source url or category), and composing the same
record twice gives identical output. -/
theorem compose_deterministic (r1 r2 : Row)
    (h1 : r1.act_name_thai = r2.act_name_thai) (h2 : r1.act_name_eng = r2.act_name_eng)
    (h3 : r1.section_number_eng = r2.section_number_eng) (h4 : r1.text_th = r2.text_th)
    (h5 : r1.text_eng = r2.text_eng) (h6 : r1.notes_thai = r2.notes_thai)
    (h7 : r1.keywords_th = r2.keywords_th) (h8 : r1.keywords_eng = r2.keywords_eng)
    (h9 : r1.related_cases = r2.related_cases) :
    textToEmbed r1 = textToEmbed r2 ∧ ∀ r : Row, textToEmbed r = textToEmbed r := by
  constructor
  · unfold textToEmbed
    rw [h1, h2, h3, h4, h5, h6, h7, h8, h9]
  · intro r
    rfl

/-- Claim C9, witness: two concrete records that differ only in their source url compose
to the identical text. -/
theorem compose_deterministic_witness :
    textToEmbed rowFull = textToEmbed rowFullOtherUrl ∧
    ∀ r : Row, textToEmbed r = textToEmbed r :=
  compose_deterministic rowFull rowFullOtherUrl rfl rfl rfl rfl rfl rfl rfl rfl rfl

/-- Claim C4: a record whose primary text field is absent or empty contributes nothing to
the run: the loop state is unchanged, no event at all is produced for it (so no composed
text, no embedding call and no write call), it is classified as skipped, and the loop
goes on with the next record. -/
theorem skip_gate_no_calls (o : Oracle) (i : Nat) (r : Row) (rest : List Row)
    (st : RunState) (h : truthy r.text_th = false) :
    processRow o i r st = st ∧ recordEvents o i r = [] ∧
    rowStatus o i r = .skipped ∧
    runFrom o i (r :: rest) st = runFrom o (i + 1) rest st := by
  have hp : processRow o i r st = st := by simp [processRow, h]
  refine ⟨hp, recordEvents_skip o i r h, ?_, ?_⟩
  · simp [rowStatus, h]
  · show runFrom o (i + 1) rest (processRow o i r st) = runFrom o (i + 1) rest st
    rw [hp]

/-- Claim C4, witness: the all-absent record is skipped by a concrete loop step. -/
theorem skip_gate_no_calls_witness :
    processRow oracleOk 0 rowBlank { trace := [], idx := [] } = { trace := [], idx := [] } ∧
    recordEvents oracleOk 0 rowBlank = [] ∧
    rowStatus oracleOk 0 rowBlank = .skipped ∧
    runFrom oracleOk 0 (rowBlank :: [rowFull]) { trace := [], idx := [] } =
      runFrom oracleOk 1 [rowFull] { trace := [], idx := [] } :=
  skip_gate_no_calls oracleOk 0 rowBlank [rowFull] { trace := [], idx := [] } rfl

/-- Claim C7, counterexample: invoking the Provisioner twice against an already-existing
collection issues zero create calls in total, not exactly one. -/
theorem provisioner_existing_twice_zero_creates :
    (ensureTwice COLLECTION_NAME
      [{ name := COLLECTION_NAME, size := VECTOR_SIZE, distance := "Cosine" }]).2 = 0 ∧
    (ensureTwice COLLECTION_NAME
      [{ name := COLLECTION_NAME, size := VECTOR_SIZE, distance := "Cosine" }]).2 ≠ 1 := by
  decide

/-- Claim C7, amended: the Provisioner queries the existing collections and creates only
when the target name is absent, so it is idempotent: the second of two invocations never
creates, two invocations issue at most one create in total, and they issue zero creates
exactly when the collection already existed (one create when it was absent). -/
theorem provisioner_idempotent (target : String) (cols : List Collection) :
    (ensureCollection target (ensureCollection target cols).1).2 = 0 ∧
    (ensureTwice target cols).2 ≤ 1 ∧
    ((ensureTwice target cols).2 = 0 ↔ cols.any (fun c => c.name == target) = true) := by
  by_cases h : cols.any (fun c => c.name == target)
  · simp [ensureTwice, ensureCollection, h]
  · simp [ensureTwice, ensureCollection, h, List.any_append]

/-- Claim C10: a record whose primary text is a non-empty whitespace-only string passes
the eligibility gate, because the gate only tests JavaScript falsiness: the record is
composed and sent to the embedding client and, when the calls succeed, written, reaching
the done status like any eligible record. -/
theorem whitespace_text_not_skipped (o : Oracle) (i : Nat) (r : Row) (s : String)
    (v : List Int) (hs : r.text_th = some s) (hne : s ≠ "")
    (hws : ∀ c ∈ s.data, c.isWhitespace) (hemb : o.embed i (textToEmbed r) = .ok v)
    (hup : o.upsert i (mkPoint (o.uuid i) v r) = .ok ()) :
    truthy r.text_th = true ∧ rowStatus o i r = .done ∧
    Event.embedCall i (textToEmbed r) ∈ recordEvents o i r ∧
    Event.upsertCall i (mkPoint (o.uuid i) v r) ∈ recordEvents o i r := by
  have ht : truthy r.text_th = true := by simp [truthy, hs, hne]
  refine ⟨ht, rowStatus_done o i r v ht hemb hup, ?_, ?_⟩
  · rw [recordEvents_ok o i r v ht hemb hup]
    simp
  · rw [recordEvents_ok o i r v ht hemb hup]
    simp

/-- Claim C10, witness: the concrete record whose primary text is a single space is
embedded and written and ends done. -/
theorem whitespace_text_not_skipped_witness :
    truthy rowSpace.text_th = true ∧ rowStatus oracleOk 0 rowSpace = .done ∧
    Event.embedCall 0 (textToEmbed rowSpace) ∈ recordEvents oracleOk 0 rowSpace ∧
    Event.upsertCall 0 (mkPoint (oracleOk.uuid 0) [1] rowSpace) ∈
      recordEvents oracleOk 0 rowSpace :=
  whitespace_text_not_skipped oracleOk 0 rowSpace " " [1] rfl (by decide) (by decide)
    rfl rfl

/-- Claim C3, counterexample: in a concrete two-record run where both records reach the
embedding stage and complete in the failed state, no inter-record delay happens at all —
the trace holds the two embedding calls and not a single sleep event, although the claim
requires a wait after failed records as well. -/
theorem no_delay_after_failed_record :
    rowStatus oracleEmbedFail 0 rowFull = .failed ∧
    numEmbedCalls (runRows oracleEmbedFail [rowFull, rowFull]).trace = 2 ∧
    Event.sleep SLEEP_MS ∉ (runRows oracleEmbedFail [rowFull, rowFull]).trace := by
  refine ⟨rfl, rfl, ?_⟩
  decide

/-- Claim C3, amended: the fixed 300 millisecond delay is observed only after records
that complete in the done state — for such a record the sleep is the record's last event;
a record that reaches the embedding stage and completes in the failed state produces no
sleep event at all, so no delay separates it from the next record. -/
theorem pacing_after_done_only (o : Oracle) (i : Nat) (r : Row)
    (h : truthy r.text_th = true) :
    (rowStatus o i r = .done →
      (recordEvents o i r).getLast? = some (Event.sleep SLEEP_MS)) ∧
    (rowStatus o i r = .failed → ∀ ms, Event.sleep ms ∉ recordEvents o i r) := by
  cases he : o.embed i (textToEmbed r) with
  | error e =>
      have hs : rowStatus o i r = .failed := rowStatus_embedFail o i r e h he
      constructor
      · intro hd
        rw [hs] at hd
        exact absurd hd (by decide)
      · intro _ ms
        rw [recordEvents_embedFail o i r e h he]
        simp
  | ok v =>
      cases hu : o.upsert i (mkPoint (o.uuid i) v r) with
      | error e =>
          have hs : rowStatus o i r = .failed := by simp [rowStatus, h, he, hu]
          constructor
          · intro hd
            rw [hs] at hd
            exact absurd hd (by decide)
          · intro _ ms
            rw [recordEvents_upsertFail o i r v e h he hu]
            simp
      | ok u =>
          have hs : rowStatus o i r = .done := rowStatus_done o i r v h he hu
          constructor
          · intro _
            rw [recordEvents_ok o i r v h he hu]
            rfl
          · intro hf
            rw [hs] at hf
            exact absurd hf (by decide)

/-- Claim C3, amended, witness: a concrete successful record ends with the sleep event. -/
theorem pacing_after_done_only_witness :
    (rowStatus oracleOk 0 rowFull = .done →
      (recordEvents oracleOk 0 rowFull).getLast? = some (Event.sleep SLEEP_MS)) ∧
    (rowStatus oracleOk 0 rowFull = .failed →
      ∀ ms, Event.sleep ms ∉ recordEvents oracleOk 0 rowFull) :=
  pacing_after_done_only oracleOk 0 rowFull rfl

/-- Claim C8, counterexample: the pipeline performs no dimensionality check. In a
concrete run where the embedding client returns a three-element vector and the index
writer accepts the write, the record ends done (no recorded per-record failure), the
mismatched vector is forwarded to the write call unchanged, and the committed index entry
has a vector of length 3, not the configured 768. -/
theorem wrong_dimension_vector_committed :
    rowStatus oracleBadVector 0 rowFull = .done ∧
    Event.upsertCall 0 (mkPoint "u" [1, 2, 3] rowFull) ∈
      (runRows oracleBadVector [rowFull]).trace ∧
    ((runRows oracleBadVector [rowFull]).idx.map fun p => p.vector.length) = [3] ∧
    ((runRows oracleBadVector [rowFull]).idx.all
      fun p => p.vector.length == VECTOR_SIZE) = false := by
  refine ⟨rfl, ?_, rfl, rfl⟩
  decide

/-- Claim C8, amended: whatever vector the embedding client returns is forwarded to the
index writer unchanged, with no dimensionality check; if the writer then rejects the
write, the record is a recorded per-record failure and the index is unchanged, and if the
writer accepts it, the entry is committed with that vector as is — wrong length
included. -/
theorem vector_forwarded_unchecked (o : Oracle) (i : Nat) (r : Row) (st : RunState)
    (v : List Int) (h : truthy r.text_th = true)
    (he : o.embed i (textToEmbed r) = .ok v) :
    Event.upsertCall i (mkPoint (o.uuid i) v r) ∈ recordEvents o i r ∧
    (∀ e, o.upsert i (mkPoint (o.uuid i) v r) = .error e →
      rowStatus o i r = .failed ∧ (processRow o i r st).idx = st.idx) ∧
    (o.upsert i (mkPoint (o.uuid i) v r) = .ok () →
      (processRow o i r st).idx = upsertPoint st.idx (mkPoint (o.uuid i) v r)) := by
  refine ⟨?_, ?_, ?_⟩
  · cases hu : o.upsert i (mkPoint (o.uuid i) v r) with
    | error e =>
        rw [recordEvents_upsertFail o i r v e h he hu]
        simp
    | ok u =>
        rw [recordEvents_ok o i r v h he hu]
        simp
  · intro e hu
    constructor
    · simp [rowStatus, h, he, hu]
    · simp [processRow, h, he, hu]
  · intro hu
    simp [processRow, h, he, hu]

/-- Claim C8, amended, witness: a concrete record whose embedding succeeds has its write
call in the trace, and with an accepting writer its point lands in the index. -/
theorem vector_forwarded_unchecked_witness :
    Event.upsertCall 0 (mkPoint (oracleOk.uuid 0) [1] rowFull) ∈
      recordEvents oracleOk 0 rowFull ∧
    (∀ e, oracleOk.upsert 0 (mkPoint (oracleOk.uuid 0) [1] rowFull) = .error e →
      rowStatus oracleOk 0 rowFull = .failed ∧
      (processRow oracleOk 0 rowFull { trace := [], idx := [] }).idx = []) ∧
    (oracleOk.upsert 0 (mkPoint (oracleOk.uuid 0) [1] rowFull) = .ok () →
      (processRow oracleOk 0 rowFull { trace := [], idx := [] }).idx =
        upsertPoint [] (mkPoint (oracleOk.uuid 0) [1] rowFull)) :=
  vector_forwarded_unchecked oracleOk 0 rowFull { trace := [], idx := [] } [1] rfl rfl

theorem runRows_trace_decomp (o : Oracle) (rows : List Row) :
    (runRows o rows).trace =
      [Event.foundRows rows.length] ++ eventsFrom o 0 rows ++ [Event.complete] := by
  simp [runRows, runRowsOn, runFrom_trace_eq]

theorem runRows_getLast (o : Oracle) (rows : List Row) :
    (runRows o rows).trace.getLast? = some Event.complete := by
  rw [runRows_trace_decomp, List.getLast?_append_cons]
  rfl

theorem mem_trace_of_mem_record (o : Oracle) (rows : List Row) (i : Nat)
    (hi : i < rows.length) (ev : Event) (hev : ev ∈ recordEvents o i rows[i]) :
    ev ∈ (runRows o rows).trace := by
  have hlen : (rows.take i).length = i := by
    rw [List.length_take]
    omega
  have hev0 : eventsFrom o 0 rows =
      eventsFrom o 0 (rows.take i) ++ eventsFrom o i (rows.drop i) := by
    conv_lhs => rw [← List.take_append_drop i rows]
    rw [eventsFrom_append, hlen, Nat.zero_add]
  have hmid : ev ∈ eventsFrom o i (rows.drop i) := by
    rw [List.drop_eq_getElem_cons hi]
    show ev ∈ recordEvents o i rows[i] ++ eventsFrom o (i + 1) (rows.drop (i + 1))
    exact List.mem_append_left _ hev
  rw [runRows_trace_decomp, hev0]
  exact List.mem_append_left _ (List.mem_append_right _ (List.mem_append_right _ hmid))

/-- Claim C5: when the embedding client fails for the record at position i only and every
other external call succeeds, the run is not aborted: every other record — in particular
the neighbours of i — reaches the done state, the failing record's identifying label and
the error are both reported in the trace, the run still completes, and the exit status of
the processing phase is 0, unaffected by the single failure. -/
theorem single_failure_isolated (rows : List Row) (i : Nat) (hi : i < rows.length)
    (o : Oracle) (cs : List Collection) (e : String)
    (helig : ∀ r ∈ rows, truthy r.text_th = true)
    (hfail : o.embed i (textToEmbed rows[i]) = .error e)
    (hok : ∀ j t, j ≠ i → ∃ v, o.embed j t = .ok v)
    (hup : ∀ j p, o.upsert j p = .ok ()) :
    (∀ j (hj : j < rows.length), j ≠ i → rowStatus o j rows[j] = .done) ∧
    rowStatus o i rows[i] = .failed ∧
    Event.processing (interp rows[i].section_number_eng) ∈ (runRows o rows).trace ∧
    Event.failedRow e ∈ (runRows o rows).trace ∧
    (runRows o rows).trace.getLast? = some Event.complete ∧
    (mainRun (Except.ok cs) o rows).1 = 0 := by
  have heligi : truthy rows[i].text_th = true :=
    helig _ (List.getElem_mem hi)
  have hre : recordEvents o i rows[i] =
      [Event.processing (interp rows[i].section_number_eng),
       Event.embedCall i (textToEmbed rows[i]), Event.failedRow e] :=
    recordEvents_embedFail o i rows[i] e heligi hfail
  refine ⟨?_, ?_, ?_, ?_, runRows_getLast o rows, rfl⟩
  · intro j hj hne
    obtain ⟨v, hv⟩ := hok j (textToEmbed rows[j]) hne
    exact rowStatus_done o j rows[j] v (helig _ (List.getElem_mem hj)) hv (hup j _)
  · exact rowStatus_embedFail o i rows[i] e heligi hfail
  · refine mem_trace_of_mem_record o rows i hi _ ?_
    rw [hre]
    simp
  · refine mem_trace_of_mem_record o rows i hi _ ?_
    rw [hre]
    simp

/-- Claim C5, witness: in a concrete three-record run whose middle record's embedding
fails, the first and third records end done, the middle ends failed, its label and error
are in the trace, and the exit status is 0. -/
theorem single_failure_isolated_witness :
    (∀ j (hj : j < ([rowFull, rowFull, rowFull] : List Row).length), j ≠ 1 →
      rowStatus oracleFailAt1 j [rowFull, rowFull, rowFull][j] = .done) ∧
    rowStatus oracleFailAt1 1 ([rowFull, rowFull, rowFull] : List Row)[1] = .failed ∧
    Event.processing
        (interp ([rowFull, rowFull, rowFull] : List Row)[1].section_number_eng) ∈
      (runRows oracleFailAt1 [rowFull, rowFull, rowFull]).trace ∧
    Event.failedRow "boom" ∈ (runRows oracleFailAt1 [rowFull, rowFull, rowFull]).trace ∧
    (runRows oracleFailAt1 [rowFull, rowFull, rowFull]).trace.getLast? =
      some Event.complete ∧
    (mainRun (Except.ok []) oracleFailAt1 [rowFull, rowFull, rowFull]).1 = 0 :=
  single_failure_isolated [rowFull, rowFull, rowFull] 1 (by decide) oracleFailAt1 [] "boom"
    (by
      intro r hr
      simp at hr
      rw [hr]
      rfl)
    rfl
    (by
      intro j t hne
      refine ⟨[1], ?_⟩
      simp [oracleFailAt1, hne])
    (fun _ _ => rfl)

/-- Claim C1, counterexample: in the exact three-record scenario of the claim (second
record without primary text, no embedding or write failures) the run terminates with the
completion message, but its trace holds no report of the seen, skipped, succeeded and
failed totals — no summary event with any counts is ever emitted. -/
theorem run_reports_no_count_summary :
    (runRows oracleOk [rowFull, rowBlank, rowFull]).trace.getLast? = some Event.complete ∧
    ∀ a b c d : Nat,
      Event.summary a b c d ∉ (runRows oracleOk [rowFull, rowBlank, rowFull]).trace := by
  have ht : (runRows oracleOk [rowFull, rowBlank, rowFull]).trace =
      [Event.foundRows 3, Event.processing "S", Event.embedCall 0 (textToEmbed rowFull),
       Event.upsertCall 0 (mkPoint "u" [1] rowFull), Event.uploaded "S", Event.sleep 300,
       Event.processing "S", Event.embedCall 2 (textToEmbed rowFull),
       Event.upsertCall 2 (mkPoint "u" [1] rowFull), Event.uploaded "S", Event.sleep 300,
       Event.complete] := rfl
  rw [ht]
  constructor
  · rfl
  · intro a b c d
    simp

/-- Claim C1, amended: the Orchestrator terminates when the rows are exhausted, logging
the number of rows found up front and a completion message, but it does not report
skipped, succeeded or failed totals; the counts derived from the run in the claim's
three-record scenario are seen 3, skipped 1, succeeded 2, failed 0, with exactly 2
embedding calls and 2 write calls. -/
theorem run_final_counts (o : Oracle) (r1 r2 r3 : Row) (v1 v3 : List Int)
    (h1 : truthy r1.text_th = true) (h2 : truthy r2.text_th = false)
    (h3 : truthy r3.text_th = true)
    (he1 : o.embed 0 (textToEmbed r1) = .ok v1)
    (he3 : o.embed 2 (textToEmbed r3) = .ok v3)
    (hu : ∀ j p, o.upsert j p = .ok ()) :
    seenCount [r1, r2, r3] = 3 ∧ skippedCount o [r1, r2, r3] = 1 ∧
    succeededCount o [r1, r2, r3] = 2 ∧ failedCount o [r1, r2, r3] = 0 ∧
    numEmbedCalls (runRows o [r1, r2, r3]).trace = 2 ∧
    numUpsertCalls (runRows o [r1, r2, r3]).trace = 2 ∧
    (runRows o [r1, r2, r3]).trace.getLast? = some Event.complete := by
  have s1 : rowStatus o 0 r1 = .done := rowStatus_done o 0 r1 v1 h1 he1 (hu 0 _)
  have s2 : rowStatus o 1 r2 = .skipped := by simp [rowStatus, h2]
  have s3 : rowStatus o 2 r3 = .done := rowStatus_done o 2 r3 v3 h3 he3 (hu 2 _)
  have hst : statusesFrom o 0 [r1, r2, r3] = [.done, .skipped, .done] := by
    simp [statusesFrom, s1, s2, s3]
  have htr : (runRows o [r1, r2, r3]).trace =
      [Event.foundRows 3] ++
        (recordEvents o 0 r1 ++ (recordEvents o 1 r2 ++ (recordEvents o 2 r3 ++ []))) ++
        [Event.complete] := by
    simp [runRows, runRowsOn, runFrom_trace_eq, eventsFrom]
  have re1 := recordEvents_ok o 0 r1 v1 h1 he1 (hu 0 _)
  have re2 := recordEvents_skip o 1 r2 h2
  have re3 := recordEvents_ok o 2 r3 v3 h3 he3 (hu 2 _)
  refine ⟨rfl, ?_, ?_, ?_, ?_, ?_, ?_⟩
  · unfold skippedCount
    rw [hst]
    decide
  · unfold succeededCount
    rw [hst]
    decide
  · unfold failedCount
    rw [hst]
    decide
  · unfold numEmbedCalls
    rw [htr, re1, re2, re3]
    simp
  · unfold numUpsertCalls
    rw [htr, re1, re2, re3]
    simp
  · rw [htr, re1, re2, re3]
    rfl

/-- Claim C1, amended, witness: the concrete three-record scenario realizes the counts. -/
theorem run_final_counts_witness :
    seenCount [rowFull, rowBlank, rowFull] = 3 ∧
    skippedCount oracleOk [rowFull, rowBlank, rowFull] = 1 ∧
    succeededCount oracleOk [rowFull, rowBlank, rowFull] = 2 ∧
    failedCount oracleOk [rowFull, rowBlank, rowFull] = 0 ∧
    numEmbedCalls (runRows oracleOk [rowFull, rowBlank, rowFull]).trace = 2 ∧
    numUpsertCalls (runRows oracleOk [rowFull, rowBlank, rowFull]).trace = 2 ∧
    (runRows oracleOk [rowFull, rowBlank, rowFull]).trace.getLast? = some Event.complete :=
  run_final_counts oracleOk rowFull rowBlank rowFull [1] [1] rfl rfl rfl rfl rfl
    (fun _ _ => rfl)

theorem embedOk_indices (e : Nat → String → Except String (List Int)) (rows : List Row)
    (i : Nat) (x : Nat × Row × List Int) (hx : x ∈ embedOk e i rows) :
    i ≤ x.1 ∧ x.1 < i + rows.length := by
  induction rows generalizing i with
  | nil => simp [embedOk] at hx
  | cons r rest ih =>
      simp only [embedOk] at hx
      by_cases h : truthy r.text_th
      · rw [if_pos h] at hx
        cases he : e i (textToEmbed r) with
        | error err =>
            rw [he] at hx
            have := ih (i + 1) hx
            simp only [List.length_cons]
            omega
        | ok v =>
            rw [he] at hx
            rcases List.mem_cons.1 hx with hx | hx
            · rw [hx]
              simp only [List.length_cons]
              omega
            · have := ih (i + 1) hx
              simp only [List.length_cons]
              omega
      · rw [if_neg h] at hx
        have := ih (i + 1) hx
        simp only [List.length_cons]
        omega

theorem runFrom_idx_eq (o : Oracle) (rows : List Row) (i : Nat) (st : RunState)
    (hup : ∀ j p, o.upsert j p = .ok ())
    (hdisj : ∀ j, i ≤ j → j < i + rows.length → ∀ q ∈ st.idx, o.uuid j ≠ q.id)
    (hinj : ∀ j k, i ≤ j → j < i + rows.length → i ≤ k → k < i + rows.length → j ≠ k →
      o.uuid j ≠ o.uuid k) :
    (runFrom o i rows st).idx =
      st.idx ++ (embedOk o.embed i rows).map (fun x => mkPoint (o.uuid x.1) x.2.2 x.2.1) := by
  induction rows generalizing i st with
  | nil => simp [runFrom, embedOk]
  | cons r rest ih =>
      have hstep : runFrom o i (r :: rest) st = runFrom o (i + 1) rest (processRow o i r st) := rfl
      by_cases h : truthy r.text_th
      · cases he : o.embed i (textToEmbed r) with
        | error err =>
            have hpr : (processRow o i r st).idx = st.idx := by
              simp [processRow, h, he]
            have hd : ∀ j, i + 1 ≤ j → j < i + 1 + rest.length →
                ∀ q ∈ (processRow o i r st).idx, o.uuid j ≠ q.id := by
              intro j hj1 hj2 q hq
              rw [hpr] at hq
              refine hdisj j (by omega) (by simp only [List.length_cons]; omega) q hq
            have hj : ∀ j k, i + 1 ≤ j → j < i + 1 + rest.length → i + 1 ≤ k →
                k < i + 1 + rest.length → j ≠ k → o.uuid j ≠ o.uuid k := by
              intro j k hj1 hj2 hk1 hk2 hne
              refine hinj j k (by omega) (by simp only [List.length_cons]; omega) (by omega)
                (by simp only [List.length_cons]; omega) hne
            rw [hstep, ih (i + 1) (processRow o i r st) hd hj, hpr]
            have hek : embedOk o.embed i (r :: rest) = embedOk o.embed (i + 1) rest := by
              simp [embedOk, h, he]
            rw [hek]
        | ok v =>
            have hupi := hup i (mkPoint (o.uuid i) v r)
            have hpr : (processRow o i r st).idx =
                upsertPoint st.idx (mkPoint (o.uuid i) v r) := by
              simp [processRow, h, he, hupi]
            have hnew : (st.idx.any fun q => q.id == (mkPoint (o.uuid i) v r).id) = false := by
              rw [List.any_eq_false]
              intro q hq
              have hne : o.uuid i ≠ q.id :=
                hdisj i (Nat.le_refl i) (by simp only [List.length_cons]; omega) q hq
              simp [mkPoint]
              exact fun hcontra => hne hcontra.symm
            have hups : upsertPoint st.idx (mkPoint (o.uuid i) v r) =
                st.idx ++ [mkPoint (o.uuid i) v r] := by
              simp [upsertPoint, hnew]
            have hd : ∀ j, i + 1 ≤ j → j < i + 1 + rest.length →
                ∀ q ∈ (processRow o i r st).idx, o.uuid j ≠ q.id := by
              intro j hj1 hj2 q hq
              rw [hpr, hups] at hq
              rcases List.mem_append.1 hq with hq | hq
              · refine hdisj j (by omega) (by simp only [List.length_cons]; omega) q hq
              · have hq' : q = mkPoint (o.uuid i) v r := by simpa using hq
                rw [hq']
                show o.uuid j ≠ o.uuid i
                refine hinj j i (by omega) (by simp only [List.length_cons]; omega)
                  (by omega) (by simp only [List.length_cons]; omega) (by omega)
            have hj : ∀ j k, i + 1 ≤ j → j < i + 1 + rest.length → i + 1 ≤ k →
                k < i + 1 + rest.length → j ≠ k → o.uuid j ≠ o.uuid k := by
              intro j k hj1 hj2 hk1 hk2 hne
              refine hinj j k (by omega) (by simp only [List.length_cons]; omega) (by omega)
                (by simp only [List.length_cons]; omega) hne
            rw [hstep, ih (i + 1) (processRow o i r st) hd hj, hpr, hups]
            have hek : embedOk o.embed i (r :: rest) =
                (i, r, v) :: embedOk o.embed (i + 1) rest := by
              simp [embedOk, h, he]
            rw [hek, List.map_cons, List.append_assoc]
            rfl
      · have hpr : processRow o i r st = st := by
          simp [processRow, h]
        have hd : ∀ j, i + 1 ≤ j → j < i + 1 + rest.length →
            ∀ q ∈ st.idx, o.uuid j ≠ q.id := by
          intro j hj1 hj2 q hq
          refine hdisj j (by omega) (by simp only [List.length_cons]; omega) q hq
        have hj : ∀ j k, i + 1 ≤ j → j < i + 1 + rest.length → i + 1 ≤ k →
            k < i + 1 + rest.length → j ≠ k → o.uuid j ≠ o.uuid k := by
          intro j k hj1 hj2 hk1 hk2 hne
          refine hinj j k (by omega) (by simp only [List.length_cons]; omega) (by omega)
            (by simp only [List.length_cons]; omega) hne
        rw [hstep, hpr, ih (i + 1) st hd hj]
        have hek : embedOk o.embed i (r :: rest) = embedOk o.embed (i + 1) rest := by
          simp [embedOk, h]
        rw [hek]

theorem runRows_idx_eq (o : Oracle) (rows : List Row)
    (hup : ∀ j p, o.upsert j p = .ok ())
    (hinj : ∀ j k, j < rows.length → k < rows.length → j ≠ k → o.uuid j ≠ o.uuid k) :
    (runRows o rows).idx =
      (embedOk o.embed 0 rows).map (fun x => mkPoint (o.uuid x.1) x.2.2 x.2.1) := by
  have := runFrom_idx_eq o rows 0
    { trace := [Event.foundRows rows.length], idx := [] } hup
    (by intro j hj1 hj2 q hq; simp at hq)
    (by intro j k h1 h2 h3 h4 hne; exact hinj j k (by omega) (by omega) hne)
  simpa [runRows, runRowsOn] using this

/-- Claim C6: each successful write carries an identity drawn from the random identity
stream, independent of the record's content; re-running the pipeline over the same rows
with a fresh identity stream overwrites nothing — the index afterwards holds the first
run's entries followed by the second run's, the two runs' entries have identical vector
and payload content position by position, and no identity of the first run equals any
identity of the second. -/
theorem rerun_creates_duplicates (rows : List Row) (o1 o2 : Oracle)
    (he : o1.embed = o2.embed)
    (hu1 : ∀ j p, o1.upsert j p = .ok ()) (hu2 : ∀ j p, o2.upsert j p = .ok ())
    (hinj1 : ∀ j k, j < rows.length → k < rows.length → j ≠ k → o1.uuid j ≠ o1.uuid k)
    (hinj2 : ∀ j k, j < rows.length → k < rows.length → j ≠ k → o2.uuid j ≠ o2.uuid k)
    (hcross : ∀ j k, j < rows.length → k < rows.length → o2.uuid j ≠ o1.uuid k) :
    (runRowsOn o2 rows (runRows o1 rows).idx).idx =
      (runRows o1 rows).idx ++ (runRows o2 rows).idx ∧
    (runRows o1 rows).idx.map content = (runRows o2 rows).idx.map content ∧
    (∀ p ∈ (runRows o1 rows).idx, ∃ j, j < rows.length ∧ p.id = o1.uuid j) ∧
    (∀ p ∈ (runRows o1 rows).idx, ∀ q ∈ (runRows o2 rows).idx, p.id ≠ q.id) := by
  have w1 := runRows_idx_eq o1 rows hu1 hinj1
  have w2 := runRows_idx_eq o2 rows hu2 hinj2
  have hid1 : ∀ p ∈ (runRows o1 rows).idx, ∃ j, j < rows.length ∧ p.id = o1.uuid j := by
    intro p hp
    rw [w1] at hp
    rcases List.mem_map.1 hp with ⟨x, hx, hpx⟩
    have hb := embedOk_indices o1.embed rows 0 x hx
    exact ⟨x.1, by omega, by rw [← hpx]; rfl⟩
  have hid2 : ∀ p ∈ (runRows o2 rows).idx, ∃ j, j < rows.length ∧ p.id = o2.uuid j := by
    intro p hp
    rw [w2] at hp
    rcases List.mem_map.1 hp with ⟨x, hx, hpx⟩
    have hb := embedOk_indices o2.embed rows 0 x hx
    exact ⟨x.1, by omega, by rw [← hpx]; rfl⟩
  refine ⟨?_, ?_, hid1, ?_⟩
  · have hrun2 : (runRowsOn o2 rows (runRows o1 rows).idx).idx =
        (runRows o1 rows).idx ++
          (embedOk o2.embed 0 rows).map (fun x => mkPoint (o2.uuid x.1) x.2.2 x.2.1) := by
      have := runFrom_idx_eq o2 rows 0
        { trace := [Event.foundRows rows.length], idx := (runRows o1 rows).idx } hu2
        (by
          intro j hj1 hj2 q hq
          rcases hid1 q hq with ⟨k, hk, hqk⟩
          rw [hqk]
          exact hcross j k (by omega) hk)
        (by intro j k h1 h2 h3 h4 hne; exact hinj2 j k (by omega) (by omega) hne)
      simpa [runRowsOn] using this
    rw [hrun2, w2]
  · rw [w1, w2, List.map_map, List.map_map, ← he]
    refine List.map_congr_left ?_
    intro x hx
    rfl
  · intro p hp q hq
    rcases hid1 p hp with ⟨j, hj, hpj⟩
    rcases hid2 q hq with ⟨k, hk, hqk⟩
    rw [hpj, hqk]
    exact fun hcontra => hcross k j hk hj hcontra.symm

/-- Claim C6, witness: one eligible row ingested by two runs with distinct identity
streams leaves two index entries with equal content and different identities. -/
theorem rerun_creates_duplicates_witness :
    (runRowsOn oracleIdB [rowFull] (runRows oracleIdA [rowFull]).idx).idx =
      (runRows oracleIdA [rowFull]).idx ++ (runRows oracleIdB [rowFull]).idx ∧
    (runRows oracleIdA [rowFull]).idx.map content =
      (runRows oracleIdB [rowFull]).idx.map content ∧
    (∀ p ∈ (runRows oracleIdA [rowFull]).idx,
      ∃ j, j < ([rowFull] : List Row).length ∧ p.id = oracleIdA.uuid j) ∧
    (∀ p ∈ (runRows oracleIdA [rowFull]).idx,
      ∀ q ∈ (runRows oracleIdB [rowFull]).idx, p.id ≠ q.id) :=
  rerun_creates_duplicates [rowFull] oracleIdA oracleIdB rfl (fun _ _ => rfl)
    (fun _ _ => rfl)
    (by
      intro j k hj hk hne
      simp only [List.length_cons, List.length_nil] at hj hk
      omega)
    (by
      intro j k hj hk hne
      simp only [List.length_cons, List.length_nil] at hj hk
      omega)
    (by
      intro j k hj hk
      simp only [List.length_cons, List.length_nil] at hj hk
      have hj0 : j = 0 := by omega
      have hk0 : k = 0 := by omega
      rw [hj0, hk0]
      decide)

end Nitisure
